import Mathlib

/-!
Verification of the DDK makefile generator (`gen_makefiles.py`).

The generator is modelled shallowly: relative POSIX paths are lists of
path segments (the `parts` of a `pathlib.Path`), file contents are
`String`s built exactly as the Python code builds them, and the fatal
`die` calls are modelled with `Except`/`Option`.  The whole invocation
is modelled as a function returning the list of files written (in write
order) together with an optional fatal error, so that partial writes
before a fatal exit are visible.
-/

namespace GenMakefiles

/-! ## Relative POSIX path model (pathlib `parts`) -/

/-- Rendering of a relative path from its segments, as `str(PurePosixPath)`
does for a non-empty relative path: segments joined by `/`. -/
def joinParts : List String → String
  | [] => ""
  | [p] => p
  | p :: q :: ps => p ++ "/" ++ joinParts (q :: ps)

/-- `str()` of a relative `pathlib.Path` given by its segments; the empty
segment list is the path `.`. -/
def pathStr (p : List String) : String :=
  if p = [] then "." else joinParts p

/-- `Path.name`: the final segment, or `""` for the path `.`. -/
def pathName (p : List String) : String :=
  (p.getLast?).getD ""

/-- `Path.parent` for a relative path: drop the final segment
(`Path('.').parent == Path('.')`). -/
def parentPath (p : List String) : List String :=
  p.dropLast

/-- Splits a character list at its last `'.'`: returns the characters
before and after that dot, or `none` when no dot occurs. -/
def lastDotSplit : List Char → Option (List Char × List Char)
  | [] => none
  | c :: rest =>
    match lastDotSplit rest with
    | some p => some (c :: p.1, p.2)
    | none => if c = '.' then some ([], rest) else none

/-- `PurePath.suffix` of a file name: `name[i:]` for the last dot index
`i` when `0 < i < len(name) - 1`, else `""`. -/
def suffixOfName (n : String) : String :=
  match lastDotSplit n.toList with
  | some (b, a) => if b ≠ [] ∧ a ≠ [] then String.mk ('.' :: a) else ""
  | none => ""

/-- `str.lower()` (ASCII as used here). -/
def lowerStr (s : String) : String :=
  String.mk (s.toList.map Char.toLower)

/-- `PurePath.with_suffix` on the final name: drop the current suffix (if
any) and append the new one. -/
def withSuffixName (n : String) (suf : String) : String :=
  let old := suffixOfName n
  if old = "" then n ++ suf
  else String.mk (n.toList.take (n.toList.length - old.toList.length)) ++ suf

/-- `PurePath.with_suffix` on a relative path: replace the suffix of the
final segment.  (Python raises on an empty name; the generator only ever
reaches this call on paths with a name, so the `[]` case is junk.) -/
def withSuffix (p : List String) (suf : String) : List String :=
  match p.getLast? with
  | none => []
  | some n => p.dropLast ++ [withSuffixName n suf]

/-- `PurePath.is_relative_to` for relative paths: segment-list prefix. -/
def isRelativeTo (p q : List String) : Bool :=
  q.isPrefixOf p

/-- `PurePath.relative_to` for relative paths: drop `q`'s segments when
`q` is a segment prefix of `p`, and `none` for the `ValueError` the
method raises otherwise. -/
def relativeTo (p q : List String) : Option (List String) :=
  if q.isPrefixOf p then some (p.drop q.length) else none

/-! ## Python string membership (`in` is a substring test) -/

/-- Boolean list-prefix test. -/
def listIsPre : List Char → List Char → Bool
  | [], _ => true
  | _ :: _, [] => false
  | a :: as, b :: bs => a == b && listIsPre as bs

/-- Boolean contiguous-sublist test. -/
def strIn : List Char → List Char → Bool
  | n, [] => listIsPre n []
  | n, c :: t => listIsPre n (c :: t) || strIn n t

/-- Python `needle in haystack` on strings: substring containment. -/
def pyInStr (needle haystack : String) : Bool :=
  strIn needle.toList haystack.toList

/-! ## `shlex.quote` -/

/-- Characters `shlex.quote` treats as safe: ASCII `\w` plus
`@ % + = : , . -` and the slash. -/
def shlexSafe (c : Char) : Bool :=
  (('a' ≤ c && c ≤ 'z') || ('A' ≤ c && c ≤ 'Z') || ('0' ≤ c && c ≤ '9')) ||
  (c == '_' || c == '@' || c == '%' || c == '+' || c == '=' ||
   c == ':' || c == ',' || c == '.' || c == '/' || c == '-')

/-- `shlex.quote`: empty strings become `''`; strings of safe characters
pass through; anything else is wrapped in single quotes with embedded
single quotes rewritten. -/
def shlexQuote (s : String) : String :=
  if s = "" then "''"
  else if s.toList.all shlexSafe then s
  else "'" ++ String.mk (s.toList.flatMap
    (fun c => if c = '\'' then "'\"'\"'".toList else [c])) ++ "'"

/-! ## `os.path.join` and the relative roots -/

/-- `os.path.join(*segments)` for plain relative segments; `none` models
the `TypeError` raised when the segment list is empty. -/
def osPathJoin : List String → Option String
  | [] => none
  | p :: ps => some (ps.foldl (fun acc q => acc ++ "/" ++ q) p)

/-- The Makefile emitter's relative root:
`os.path.join(*([".."] * len(package.parts)))`. -/
def relRootMakefile (package : List String) : Option String :=
  osPathJoin (List.replicate package.length "..")

/-- The Kbuild emitter's relative root:
`Path(*([".."] * len((package / kernel_module_out.parent).parts)))`. -/
def relRootKbuild (package out : List String) : List String :=
  List.replicate (package ++ parentPath out).length ".."

/-! ## The Makefile emitter (`_gen_makefile`) -/

/-- The fixed three-target stanza ending every generated Makefile. -/
def makefileTail : String :=
  "modules modules_install clean:\n\t$(MAKE) -C $(KERNEL_SRC) M=$(M) $(KBUILD_OPTIONS) KBUILD_EXTRA_SYMBOLS=\"$(EXTRA_SYMBOLS)\" $(@)\n"

/-- Sequential concatenation of emitted chunks (the successive
`out_file.write` calls). -/
def concatStrs : List String → String
  | [] => ""
  | s :: ss => s ++ concatStrs ss

/-- Content of the generated `Makefile`: one comment plus one
`EXTRA_SYMBOLS` accumulation per symvers file, then the fixed stanza;
`none` models the `TypeError` from `os.path.join` on an empty package. -/
def genMakefileContent (package : List String)
    (symversList : List (List String)) : Option String :=
  match relRootMakefile package with
  | none => none
  | some relRoot => some (concatStrs (symversList.map (fun m =>
      "# Include symbol: " ++ pathStr m ++
      "\nEXTRA_SYMBOLS += $(OUT_DIR)/$(M)/" ++ relRoot ++ "/" ++ pathStr m ++
      "\n")) ++ makefileTail)

/-! ## The Kbuild emitter (`gen_ddk_makefile`) -/

/-- The recognized compilable-source suffixes (`_SOURCE_SUFFIXES`). -/
def sourceSuffixes : List String := [".c", ".rs", ".s"]

/-- The lowercased suffix of a source path's file name
(`src.suffix.lower()`). -/
def srcSuffix (src : List String) : String :=
  lowerStr (suffixOfName (pathName src))

/-- One `ccflags-y` line (`_write_ccflag`): the flag is shell-escaped. -/
def ccflagLine (ccflag : String) : String :=
  "ccflags-y += " ++ shlexQuote ccflag ++ "\n"

/-- Processing of one package-relative source in the Kbuild loop: either
the text written for it, or the fatal message that stops the run (a `die`
call, or the uncaught `ValueError` that `relative_to` raises when the
`.o`-substituted source is not under the module's directory — possible
even after the `is_relative_to` check passed, namely when the source path
equals the module output's containing directory itself).  The branch
order is the code's: header substring test, compilable-suffix test,
namesake test, under-module-directory test, object-composition
emission. -/
def srcStep (package out src : List String) : Except String String :=
  if pyInStr (srcSuffix src) ".h" then .ok ""
  else if ¬ (srcSuffix src ∈ sourceSuffixes) then
    .error ("Invalid source " ++ pathStr src)
  else if withSuffix src ".ko" = out then
    .ok ("# The module " ++ pathStr out ++ " has a source file " ++
      pathStr src ++ "\n")
  else if ¬ isRelativeTo src (parentPath out) then
    .error (pathStr src ++ " is not a valid source because it is not under "
      ++ pathStr (parentPath out))
  else
    match relativeTo (withSuffix src ".o") (parentPath out) with
    | some o =>
      .ok ("# Source: " ++ pathStr (package ++ src) ++ "\n" ++
        withSuffixName (pathName out) "" ++ "-y += " ++ pathStr o ++ "\n")
    | none =>
      .error ("ValueError: " ++ pathStr (withSuffix src ".o") ++
        " is not in the subpath of " ++ pathStr (parentPath out))

/-- The text actually written to the Kbuild file for one source: nothing
when the generator dies at that source. -/
def srcEmitted (package out src : List String) : String :=
  match srcStep package out src with
  | .ok s => s
  | .error _ => ""

/-- The source loop: accumulated text of the successfully processed
sources, and the first fatal error if one occurs (nothing after it is
written). -/
def emitSrcs (package out : List String) :
    List (List String) → String × Option String
  | [] => ("", none)
  | s :: rest =>
    match srcStep package out s with
    | .error e => ("", some e)
    | .ok line =>
      let r := emitSrcs package out rest
      (line ++ r.1, r.2)

/-- The include-directory section: per directory a comment plus a
`ccflags-y` line with the `-I` flag built from the relative root. -/
def includeSection (relRoot : List String)
    (includeDirs : List (List String)) : String :=
  concatStrs (includeDirs.map (fun d =>
    "# Include " ++ pathStr d ++ "\n" ++
    ccflagLine ("-I$(srctree)/$(src)/" ++ pathStr relRoot ++ "/" ++ pathStr d)))

/-- The local-defines section: a header comment when non-empty, then one
`-D` flag line per define. -/
def definesSection (localDefines : List String) : String :=
  (if localDefines ≠ [] then "\n# local defines\n" else "") ++
  concatStrs (localDefines.map (fun d => ccflagLine ("-D" ++ d)))

/-- One record of the side-channel compiler-options JSON array. -/
structure CoptRecord where
  expanded : String
  is_path : Bool
deriving DecidableEq, Repr

/-- Splits a character list on `'/'`. -/
def splitSlash : List Char → List (List Char)
  | [] => [[]]
  | c :: rest =>
    if c = '/' then [] :: splitSlash rest
    else
      match splitSlash rest with
      | [] => [[c]]
      | p :: ps => (c :: p) :: ps

/-- `PurePosixPath` segment parsing of a string: split on slashes,
dropping empty components and `.`. -/
def parseParts (s : String) : List String :=
  ((splitSlash s.toList).map String.mk).filter (fun p => p ≠ "" && p ≠ ".")

/-- Whether a path string is absolute (leading slash). -/
def startsWithSlash (s : String) : Bool :=
  match s.toList with
  | '/' :: _ => true
  | _ => false

/-- `str(rel_root / expanded)` for a relative `rel_root`: an absolute
`expanded` replaces the whole path (pathlib join), otherwise the parsed
segments are appended to `rel_root`. -/
def pyJoinStr (relRoot : List String) (expanded : String) : String :=
  if startsWithSlash expanded then "/" ++ joinParts (parseParts expanded)
  else pathStr (relRoot ++ parseParts expanded)

/-- The flag value emitted for one copt record: `is_path` records are
joined onto the relative root first. -/
def coptValue (relRoot : List String) (d : CoptRecord) : String :=
  if d.is_path then pyJoinStr relRoot d.expanded else d.expanded

/-- `_handle_copt_file`: nothing without an options channel, otherwise a
section comment plus one shell-escaped `ccflags-y` line per record, in
order. -/
def handleCoptFile (relRoot : List String)
    (coptFile : Option (List CoptRecord)) : String :=
  match coptFile with
  | none => ""
  | some ds =>
    "\n# copts\n" ++ concatStrs (ds.map (fun d => ccflagLine (coptValue relRoot d)))

/-- The fixed header of the per-module Kbuild file, including the blank
line written after it. -/
def kbuildHeader (package out : List String) : String :=
  "# Build " ++ pathStr (package ++ out) ++ "\nobj-m += " ++
  pathName (withSuffix out ".o") ++ "\n" ++ "\n"

/-! ## The whole invocation, with its writes in order -/

/-- Result of one generator invocation: the files written (path segments
relative to the filesystem root, paired with content, in write order) and
the fatal error, if any.  A file whose write was cut short by `die` keeps
the text written up to that point. -/
structure GenResult where
  files : List (List String × String)
  err : Option String
deriving DecidableEq, Repr

/-- `gen_ddk_makefile`: write the Makefile (dying first on an empty
package, where `os.path.join` raises), filter the package-relative
sources, check the `.ko` suffix, write the Kbuild file piece by piece
(possibly dying at a bad source), and finally write the top-level
aggregator Kbuild when the module lives in a subdirectory. -/
def gen_ddk_makefile (outputMakefiles out : List String)
    (srcs : List (List String)) (includeDirs : List (List String))
    (symversList : List (List String)) (package : List String)
    (localDefines : List String) (coptFile : Option (List CoptRecord)) :
    GenResult :=
  match genMakefileContent package symversList with
  | none => ⟨[], some "TypeError: os.path.join() missing argument"⟩
  | some mk =>
    let files0 := [(outputMakefiles ++ ["Makefile"], mk)]
    let relSrcs := (srcs.filter (fun s => isRelativeTo s package)).filterMap
      (fun s => relativeTo s package)
    if suffixOfName (pathName out) ≠ ".ko" then
      ⟨files0, some ("Invalid output: " ++ pathStr out ++ "; must end with .ko")⟩
    else
      let kbuildPath := outputMakefiles ++ parentPath out ++ ["Kbuild"]
      let hdr := kbuildHeader package out
      let sr := emitSrcs package out relSrcs
      match sr.2 with
      | some e => ⟨files0 ++ [(kbuildPath, hdr ++ sr.1)], some e⟩
      | none =>
        let relRoot := relRootKbuild package out
        let content := hdr ++ sr.1 ++ "\n" ++
          includeSection relRoot includeDirs ++
          definesSection localDefines ++
          handleCoptFile relRoot coptFile
        let files1 := files0 ++ [(kbuildPath, content)]
        if kbuildPath ≠ outputMakefiles ++ ["Kbuild"] then
          ⟨files1 ++ [(outputMakefiles ++ ["Kbuild"],
            "# Build " ++ pathStr (package ++ out) ++ "\nobj-y += " ++
            pathStr (parentPath out) ++ "/\n")], none⟩
        else ⟨files1, none⟩

/-! ## Helper lemmas -/

/-- `n` repetitions of a slash followed by `..`. -/
def dotsTail : Nat → String
  | 0 => ""
  | n + 1 => "/.." ++ dotsTail n

/-- `n` repetitions of `..` joined by slashes. -/
def dotsStr : Nat → String
  | 0 => ""
  | n + 1 => ".." ++ dotsTail n

theorem foldl_replicate_dots (n : Nat) (s : String) :
    (List.replicate n "..").foldl (fun acc q => acc ++ "/" ++ q) s =
      s ++ dotsTail n := by
  induction n generalizing s with
  | zero => simp [dotsTail, String.append_empty]
  | succ n ih =>
      rw [List.replicate_succ, List.foldl_cons, ih, dotsTail,
        String.append_assoc, String.append_assoc]
      rfl

theorem relRootMakefile_eq (package : List String) (h : package ≠ []) :
    relRootMakefile package = some (dotsStr package.length) := by
  obtain ⟨p, ps, rfl⟩ := List.exists_cons_of_ne_nil h
  rw [relRootMakefile, List.length_cons, List.replicate_succ, osPathJoin,
    foldl_replicate_dots, dotsStr]

theorem concatStrs_append (l₁ l₂ : List String) :
    concatStrs (l₁ ++ l₂) = concatStrs l₁ ++ concatStrs l₂ := by
  induction l₁ with
  | nil => rw [List.nil_append, concatStrs, String.empty_append]
  | cons s ss ih => rw [List.cons_append, concatStrs, concatStrs, ih,
      String.append_assoc]

theorem joinParts_append (a b : List String) (ha : a ≠ []) (hb : b ≠ []) :
    joinParts (a ++ b) = joinParts a ++ "/" ++ joinParts b := by
  induction a with
  | nil => exact absurd rfl ha
  | cons x xs ih =>
      cases xs with
      | nil =>
          obtain ⟨y, ys, rfl⟩ := List.exists_cons_of_ne_nil hb
          rw [List.singleton_append, joinParts, joinParts]
      | cons y ys =>
          rw [List.cons_append, List.cons_append, joinParts,
            ← List.cons_append y ys b, ih (by simp)]
          rw [joinParts]
          simp [String.append_assoc]

theorem suffixOfName_shape (n : String) :
    suffixOfName n = "" ∨
      ∃ a : List Char, a ≠ [] ∧ suffixOfName n = String.mk ('.' :: a) := by
  rw [suffixOfName]
  rcases hs : lastDotSplit n.toList with _ | ⟨b, a⟩
  · exact Or.inl rfl
  · by_cases hba : b ≠ [] ∧ a ≠ []
    · refine Or.inr ⟨a, hba.2, ?_⟩
      show (if b ≠ [] ∧ a ≠ [] then String.mk ('.' :: a) else "") =
        String.mk ('.' :: a)
      rw [if_pos hba]
    · refine Or.inl ?_
      show (if b ≠ [] ∧ a ≠ [] then String.mk ('.' :: a) else "") = ""
      rw [if_neg hba]

theorem lowerStr_dot_cons (a : List Char) :
    lowerStr (String.mk ('.' :: a)) = String.mk ('.' :: a.map Char.toLower) := by
  have hdot : Char.toLower '.' = '.' := by decide
  rw [lowerStr]
  show String.mk (('.' :: a).map Char.toLower) = _
  rw [List.map_cons, hdot]

theorem strIn_two_h (x : Char) (xs : List Char) :
    strIn ('.' :: x :: xs) ['.', 'h'] = true ↔ x = 'h' ∧ xs = [] := by
  cases xs with
  | nil => simp [strIn, listIsPre]
  | cons z zs => simp [strIn, listIsPre]

/-- When the lowercased suffix of a name is not empty and not `.h`, the
header substring test of the Kbuild loop is false. -/
theorem pyInStr_header_false (src : List String)
    (h0 : srcSuffix src ≠ "") (hh : srcSuffix src ≠ ".h") :
    pyInStr (srcSuffix src) ".h" = false := by
  rcases suffixOfName_shape (pathName src) with hs | ⟨a, ha, hs⟩
  · exact absurd (by rw [srcSuffix, hs]; rfl) h0
  · obtain ⟨y, ys, rfl⟩ := List.exists_cons_of_ne_nil ha
    have hlow : srcSuffix src = String.mk ('.' :: Char.toLower y ::
        ys.map Char.toLower) := by
      rw [srcSuffix, hs, lowerStr_dot_cons, List.map_cons]
    rw [hlow, pyInStr]
    show strIn ('.' :: Char.toLower y :: ys.map Char.toLower) ['.', 'h'] = false
    rcases hb : strIn ('.' :: Char.toLower y :: ys.map Char.toLower)
        ['.', 'h'] with _ | _
    · rfl
    · obtain ⟨hy, hys⟩ := (strIn_two_h _ _).mp hb
      exact absurd (by rw [hlow, hy, hys]) hh

theorem lastDotSplit_eq (cs b a : List Char)
    (h : lastDotSplit cs = some (b, a)) : cs = b ++ '.' :: a := by
  induction cs generalizing b a with
  | nil => exact Option.noConfusion h
  | cons c rest ih =>
      rw [lastDotSplit] at h
      rcases hr : lastDotSplit rest with _ | ⟨b', a'⟩
      · rw [hr] at h
        replace h : (if c = '.' then some ([], rest)
            else (none : Option (List Char × List Char))) = some (b, a) := h
        by_cases hc : c = '.'
        · rw [if_pos hc] at h
          simp only [Option.some.injEq, Prod.mk.injEq] at h
          obtain ⟨hb, ha⟩ := h
          subst hb; subst ha
          rw [hc, List.nil_append]
        · rw [if_neg hc] at h
          exact Option.noConfusion h
      · rw [hr] at h
        replace h : (some (c :: b', a') :
            Option (List Char × List Char)) = some (b, a) := h
        simp only [Option.some.injEq, Prod.mk.injEq] at h
        obtain ⟨hb, ha⟩ := h
        subst hb; subst ha
        rw [ih b' a' hr, List.cons_append]

/-- Substituting `.o` for a compilable suffix always changes the file
name: the old suffix has the wrong length or the wrong final letter. -/
theorem withSuffixName_o_ne (n : String)
    (h : lowerStr (suffixOfName n) ∈ sourceSuffixes) :
    withSuffixName n ".o" ≠ n := by
  rcases hls : lastDotSplit n.toList with _ | ⟨b, a⟩
  · rw [suffixOfName, hls] at h
    refine absurd h ?_
    show ¬ lowerStr "" ∈ sourceSuffixes
    decide
  · by_cases hba : b ≠ [] ∧ a ≠ []
    · have hold : suffixOfName n = String.mk ('.' :: a) := by
        rw [suffixOfName, hls]
        show (if b ≠ [] ∧ a ≠ [] then String.mk ('.' :: a) else "") =
          String.mk ('.' :: a)
        rw [if_pos hba]
      have hdata : n.toList = b ++ '.' :: a := lastDotSplit_eq n.toList b a hls
      have holdne : ¬ suffixOfName n = "" := by
        rw [hold]
        intro hc
        exact absurd (congrArg String.data hc) (List.cons_ne_nil '.' a)
      have htake : (b ++ '.' :: a).take ((b ++ '.' :: a).length -
          ('.' :: a).length) = b := by
        rw [List.length_append, Nat.add_sub_cancel, List.take_left]
      have hw : withSuffixName n ".o" = String.mk b ++ ".o" := by
        show (if suffixOfName n = "" then n ++ ".o"
          else String.mk (n.toList.take (n.toList.length -
            (suffixOfName n).toList.length)) ++ ".o") = String.mk b ++ ".o"
        rw [if_neg holdne, hold, hdata]
        show String.mk ((b ++ '.' :: a).take ((b ++ '.' :: a).length -
          ('.' :: a).length)) ++ ".o" = String.mk b ++ ".o"
        rw [htake]
      intro heq
      rw [hw] at heq
      have hdq : b ++ '.' :: 'o' :: [] = b ++ '.' :: a := by
        have hd := congrArg String.data heq
        rwa [show (String.mk b ++ ".o").data = b ++ '.' :: 'o' :: [] from rfl,
          show n.data = b ++ '.' :: a from hdata] at hd
      have ha' : a = ['o'] := by
        have h2 := List.append_cancel_left hdq
        injection h2 with _ h3
        exact h3.symm
      rw [hold, ha'] at h
      revert h; decide
    · rw [suffixOfName, hls] at h
      refine absurd h ?_
      show ¬ lowerStr (if b ≠ [] ∧ a ≠ [] then String.mk ('.' :: a) else "") ∈
        sourceSuffixes
      rw [if_neg hba]
      decide

/-- When a source is strictly under a directory, its `.o`-substituted
form still has that directory as a segment prefix. -/
theorem isPrefixOf_withSuffix_o (P src : List String)
    (hrel : isRelativeTo src P = true) (hne : src ≠ P) :
    P.isPrefixOf (withSuffix src ".o") = true := by
  obtain ⟨r, rfl⟩ := List.isPrefixOf_iff_prefix.mp hrel
  have hr : r ≠ [] := by
    intro h
    rw [h, List.append_nil] at hne
    exact hne rfl
  have hn : r.getLast? = some (r.getLast hr) := List.getLast?_eq_getLast r hr
  rw [withSuffix, List.getLast?_append_of_ne_nil P hr, hn]
  show P.isPrefixOf ((P ++ r).dropLast ++
    [withSuffixName (r.getLast hr) ".o"]) = true
  rw [List.dropLast_append_of_ne_nil P hr, List.append_assoc]
  exact List.isPrefixOf_iff_prefix.mpr (List.prefix_append P _)

/-- When the source path is the module directory itself, the
`.o`-substituted form is no longer relative to it: `relative_to`
raises. -/
theorem relativeTo_withSuffix_o_self (src : List String)
    (hsfx : srcSuffix src ∈ sourceSuffixes) :
    relativeTo (withSuffix src ".o") src = none := by
  have hsrc : src ≠ [] := by
    intro h
    rw [h] at hsfx
    revert hsfx; decide
  have hn : src.getLast? = some (src.getLast hsrc) :=
    List.getLast?_eq_getLast src hsrc
  have hpn : pathName src = src.getLast hsrc := by
    rw [pathName, hn]
    rfl
  have hW : withSuffix src ".o" =
      src.dropLast ++ [withSuffixName (src.getLast hsrc) ".o"] := by
    rw [withSuffix, hn]
  have hlen : src.length = (withSuffix src ".o").length := by
    rw [hW]
    conv_lhs => rw [← List.dropLast_append_getLast hsrc]
    simp
  rw [relativeTo]
  rcases hb : src.isPrefixOf (withSuffix src ".o") with _ | _
  · rw [if_neg (by simp [hb])]
  · exfalso
    have heq : src = withSuffix src ".o" :=
      List.IsPrefix.eq_of_length (List.isPrefixOf_iff_prefix.mp hb) hlen
    rw [hW] at heq
    conv_lhs at heq => rw [← List.dropLast_append_getLast hsrc]
    have hlast := List.append_cancel_left heq
    injection hlast with h1 _
    rw [srcSuffix, hpn] at hsfx
    exact withSuffixName_o_ne (src.getLast hsrc) hsfx h1.symm

theorem isRelativeTo_self (p : List String) : isRelativeTo p p = true := by
  rw [isRelativeTo]
  exact List.isPrefixOf_iff_prefix.mpr (List.prefix_refl p)

/-! ## C1 -/

/-- C1 counterexample: for a package of depth 0, the Makefile emitter
does not produce an empty relative root; its `os.path.join` call has no
arguments and raises, so the Makefile emitter fails (modelled as `none`)
instead of yielding the current directory. -/
theorem c1_counterexample :
    relRootMakefile [] = none ∧ genMakefileContent [] [] = none :=
  ⟨rfl, rfl⟩

/-- C1 (amended): for every package depth `d ≥ 1` the Makefile emitter's
relative root is exactly `d` `..` segments joined by slashes, and the
Kbuild emitter's relative root is exactly one `..` segment per part of
the package joined with the module's containing directory; at depth 0 the
Kbuild emitter yields the empty segment list (rendered as the current
directory `.`), while the Makefile emitter errors. -/
theorem c1_relative_root_segments (package out : List String)
    (h : package ≠ []) :
    relRootMakefile package = some (dotsStr package.length) ∧
    relRootKbuild package out =
      List.replicate (package.length + (parentPath out).length) ".." ∧
    relRootKbuild [] ["mod.ko"] = [] ∧
    pathStr (relRootKbuild [] ["mod.ko"]) = "." := by
  refine ⟨relRootMakefile_eq package h, ?_, rfl, rfl⟩
  rw [relRootKbuild, List.length_append]

/-- C1 witness: the amended statement at package `a/b` and module
`c/mod.ko`. -/
theorem c1_witness :
    (["a", "b"] : List String) ≠ [] ∧
    (relRootMakefile ["a", "b"] = some (dotsStr 2) ∧
     relRootKbuild ["a", "b"] ["c", "mod.ko"] =
       List.replicate (2 + 1) ".." ∧
     relRootKbuild [] ["mod.ko"] = [] ∧
     pathStr (relRootKbuild [] ["mod.ko"]) = ".") :=
  ⟨by decide, c1_relative_root_segments ["a", "b"] ["c", "mod.ko"] (by decide)⟩

/-! ## C2 -/

/-- C2 counterexample: with includeDirs `inc`, package `a/b` and module
output `c/mod.ko` (full path `a/b/c/mod.ko`; also with the output path
taken literally as `a/b/c/mod.ko`), the claimed line
`ccflags-y += -I$(srctree)/$(src)/../inc` does not occur in the emitted
include section: the relative root is deeper than one `..`, and
`shlex.quote` wraps the flag in single quotes. -/
theorem c2_counterexample :
    pyInStr "ccflags-y += -I$(srctree)/$(src)/../inc"
      (includeSection (relRootKbuild ["a", "b"] ["c", "mod.ko"])
        [["inc"]]) = false ∧
    pyInStr "ccflags-y += -I$(srctree)/$(src)/../inc"
      (includeSection (relRootKbuild ["a", "b"] ["a", "b", "c", "mod.ko"])
        [["inc"]]) = false := by
  constructor <;> decide

/-- C2 (amended): for includeDirs `inc` with package `a/b` and module
output `c/mod.ko` (full path `a/b/c/mod.ko`), the Kbuild emitter emits
one comment plus one ccflags line for the include directory, built from
the source-tree and source-directory variables, the relative root (one
`..` per part of package joined with the module's directory, here three)
and the include directory; the flag contains shell metacharacters, so the
shell-escaping wraps it in single quotes:
`ccflags-y += '-I$(srctree)/$(src)/../../../inc'`. -/
theorem c2_include_flag_line :
    includeSection (relRootKbuild ["a", "b"] ["c", "mod.ko"]) [["inc"]] =
      "# Include inc\nccflags-y += '-I$(srctree)/$(src)/../../../inc'\n" := by
  decide

/-! ## C7 -/

/-- C7: the generated Makefile consists of, for each dependency symvers
file in order, a comment plus one line appending
`$(OUT_DIR)/$(M)/<relative root>/<dependency>` to the `EXTRA_SYMBOLS`
accumulator, followed — also when the dependency list is empty — by the
fixed three-target stanza forwarding to the external build invocation. -/
theorem c7_makefile_structure (package : List String)
    (symversList : List (List String)) (h : package ≠ []) :
    genMakefileContent package symversList =
      some (concatStrs (symversList.map (fun m =>
        "# Include symbol: " ++ pathStr m ++
        "\nEXTRA_SYMBOLS += $(OUT_DIR)/$(M)/" ++ dotsStr package.length ++
        "/" ++ pathStr m ++ "\n")) ++
        "modules modules_install clean:\n\t$(MAKE) -C $(KERNEL_SRC) M=$(M) $(KBUILD_OPTIONS) KBUILD_EXTRA_SYMBOLS=\"$(EXTRA_SYMBOLS)\" $(@)\n") := by
  rw [genMakefileContent, relRootMakefile_eq package h]
  rfl

/-- C7 witness: the structure at package `a` with an empty dependency
list — the stanza is still emitted. -/
theorem c7_witness :
    (["a"] : List String) ≠ [] ∧
    genMakefileContent ["a"] [] =
      some (concatStrs (([] : List (List String)).map (fun m =>
        "# Include symbol: " ++ pathStr m ++
        "\nEXTRA_SYMBOLS += $(OUT_DIR)/$(M)/" ++ dotsStr 1 ++
        "/" ++ pathStr m ++ "\n")) ++
        "modules modules_install clean:\n\t$(MAKE) -C $(KERNEL_SRC) M=$(M) $(KBUILD_OPTIONS) KBUILD_EXTRA_SYMBOLS=\"$(EXTRA_SYMBOLS)\" $(@)\n") :=
  ⟨by decide, c7_makefile_structure ["a"] [] (by decide)⟩

/-! ## C3 -/

/-- C3 counterexample: the package-relative source `c/README` has an
empty suffix, which is neither the header extension `.h` nor one of the
compilable suffixes, yet the generator does not fail: the source is
skipped silently with no emitted line (the empty suffix passes the
substring-based header test). -/
theorem c3_counterexample :
    srcSuffix ["c", "README"] = "" ∧
    srcStep ["a", "b"] ["c", "mod.ko"] ["c", "README"] = .ok "" ∧
    emitSrcs ["a", "b"] ["c", "mod.ko"] [["c", "README"]] = ("", none) :=
  ⟨rfl, rfl, rfl⟩

/-- C3 (amended): for every package-relative declared source whose
lowercased suffix is non-empty and neither the header extension `.h` nor
one of `.c`, `.rs`, `.s`, the generator fails fatally reporting the
offending path, and no further Kbuild lines are emitted for that source
or any later one.  (A source with an empty suffix — no extension at all —
is instead skipped silently, because the header test is a substring
test.) -/
theorem c3_unrecognized_suffix_dies (package out src : List String)
    (rest : List (List String))
    (h : ¬ srcSuffix src ∈ ["", ".h", ".c", ".rs", ".s"]) :
    srcStep package out src = .error ("Invalid source " ++ pathStr src) ∧
    emitSrcs package out (src :: rest) =
      ("", some ("Invalid source " ++ pathStr src)) := by
  simp only [List.mem_cons, List.not_mem_nil, or_false, not_or] at h
  obtain ⟨h0, hh, hc, hrs, hs'⟩ := h
  have hfalse := pyInStr_header_false src h0 hh
  have hmem : ¬ srcSuffix src ∈ sourceSuffixes := by
    simp [sourceSuffixes, hc, hrs, hs']
  have hstep : srcStep package out src =
      .error ("Invalid source " ++ pathStr src) := by
    rw [srcStep, if_neg (by simp [hfalse]), if_pos hmem]
  exact ⟨hstep, by simp [emitSrcs, hstep]⟩

/-- C3 witness: the amended statement at the source `c/bad.xyz` for
module `c/mod.ko`, with a further source after it. -/
theorem c3_witness :
    ¬ srcSuffix ["c", "bad.xyz"] ∈ ["", ".h", ".c", ".rs", ".s"] ∧
    (srcStep ["a"] ["c", "mod.ko"] ["c", "bad.xyz"] =
        .error ("Invalid source " ++ pathStr ["c", "bad.xyz"]) ∧
     emitSrcs ["a"] ["c", "mod.ko"] (["c", "bad.xyz"] :: [["c", "ok.c"]]) =
        ("", some ("Invalid source " ++ pathStr ["c", "bad.xyz"]))) :=
  ⟨by decide, c3_unrecognized_suffix_dies ["a"] ["c", "mod.ko"]
    ["c", "bad.xyz"] [["c", "ok.c"]] (by decide)⟩

/-! ## C4 -/

/-- C4: a declared source whose module-extension-substituted name equals
the module output (the module's own namesake) never produces an
object-composition line: the text written for it is either nothing (a
header namesake, or a namesake with a bad suffix at which the generator
dies before writing) or exactly the association comment. -/
theorem c4_namesake_only_comment (package out src : List String)
    (h : withSuffix src ".ko" = out) :
    srcEmitted package out src = "" ∨
    srcEmitted package out src =
      "# The module " ++ pathStr out ++ " has a source file " ++
        pathStr src ++ "\n" := by
  rw [srcEmitted, srcStep]
  by_cases h1 : pyInStr (srcSuffix src) ".h" = true
  · rw [if_pos h1]
    exact Or.inl rfl
  · rw [if_neg h1]
    by_cases h2 : ¬ srcSuffix src ∈ sourceSuffixes
    · rw [if_pos h2]
      exact Or.inl rfl
    · rw [if_neg h2, if_pos h]
      exact Or.inr rfl

/-- C4 witness: the namesake source `c/mod.c` of module `c/mod.ko`
yields only the association comment. -/
theorem c4_witness :
    withSuffix ["c", "mod.c"] ".ko" = ["c", "mod.ko"] ∧
    (srcEmitted ["a", "b"] ["c", "mod.ko"] ["c", "mod.c"] = "" ∨
     srcEmitted ["a", "b"] ["c", "mod.ko"] ["c", "mod.c"] =
       "# The module " ++ pathStr ["c", "mod.ko"] ++ " has a source file " ++
         pathStr ["c", "mod.c"] ++ "\n") :=
  ⟨by decide, c4_namesake_only_comment ["a", "b"] ["c", "mod.ko"]
    ["c", "mod.c"] (by decide)⟩

/-! ## C5 -/

/-- C5: a declared source whose case-insensitive suffix is the header
extension `.h` is skipped: no error and no emitted line, hence never an
object-composition line. -/
theorem c5_header_source_skipped (package out src : List String)
    (h : srcSuffix src = ".h") :
    srcStep package out src = .ok "" := by
  rw [srcStep, h, if_pos (by decide)]

/-- C5 witness: the header `c/foo.H` (upper case) for module `c/mod.ko`
emits nothing. -/
theorem c5_witness :
    srcSuffix ["c", "foo.H"] = ".h" ∧
    srcStep ["a", "b"] ["c", "mod.ko"] ["c", "foo.H"] = .ok "" :=
  ⟨by decide, c5_header_source_skipped ["a", "b"] ["c", "mod.ko"]
    ["c", "foo.H"] (by decide)⟩

/-! ## C6 -/

/-- C6 counterexample: the source `mod.c` for module output
`mod.c/mod.ko` (the module's directory is itself named `mod.c` and is
listed as a source) is package-relative, compilable and not the
namesake, and it resides under the module output's containing directory
— yet no object-composition line is emitted: `relative_to` on the
`.o`-substituted path raises an uncaught `ValueError` and the generator
crashes, writing nothing for this source. -/
theorem c6_counterexample :
    srcSuffix ["mod.c"] ∈ sourceSuffixes ∧
    withSuffix ["mod.c"] ".ko" ≠ ["mod.c", "mod.ko"] ∧
    isRelativeTo ["mod.c"] (parentPath ["mod.c", "mod.ko"]) = true ∧
    srcStep ["a", "b"] ["mod.c", "mod.ko"] ["mod.c"] =
      .error ("ValueError: " ++ pathStr (withSuffix ["mod.c"] ".o") ++
        " is not in the subpath of " ++
        pathStr (parentPath ["mod.c", "mod.ko"])) ∧
    emitSrcs ["a", "b"] ["mod.c", "mod.ko"] [["mod.c"]] =
      ("", some ("ValueError: " ++ pathStr (withSuffix ["mod.c"] ".o") ++
        " is not in the subpath of " ++
        pathStr (parentPath ["mod.c", "mod.ko"]))) :=
  ⟨by decide, by decide, by decide, rfl, rfl⟩

/-- C6 (amended): for a package-relative source with a compilable suffix
that is not the module's namesake: when the source is not under the
module output's containing directory the generator dies; when it is
strictly under it, the generator emits a comment naming the original
source path followed by the object-composition line appending the `.o`
form, relative to the module's directory, to the module's object-list
variable; in the degenerate case where the source path equals the module
output's containing directory itself, the `.o`-substituted path is not
relative to that directory and `relative_to` raises an uncaught
`ValueError`, crashing the generator with nothing emitted for the
source. -/
theorem c6_compilable_source_rule (package out src : List String)
    (hsfx : srcSuffix src ∈ sourceSuffixes)
    (hns : withSuffix src ".ko" ≠ out) :
    (isRelativeTo src (parentPath out) = false →
      srcStep package out src =
        .error (pathStr src ++
          " is not a valid source because it is not under " ++
          pathStr (parentPath out))) ∧
    (isRelativeTo src (parentPath out) = true → src ≠ parentPath out →
      srcStep package out src =
        .ok ("# Source: " ++ pathStr (package ++ src) ++ "\n" ++
          withSuffixName (pathName out) "" ++ "-y += " ++
          pathStr ((withSuffix src ".o").drop (parentPath out).length) ++
          "\n")) ∧
    (src = parentPath out →
      srcStep package out src =
        .error ("ValueError: " ++ pathStr (withSuffix src ".o") ++
          " is not in the subpath of " ++ pathStr (parentPath out))) := by
  have hsfx' : srcSuffix src = ".c" ∨ srcSuffix src = ".rs" ∨
      srcSuffix src = ".s" := by simpa [sourceSuffixes] using hsfx
  have hh : pyInStr (srcSuffix src) ".h" = false := by
    rcases hsfx' with h | h | h <;> rw [h] <;> decide
  refine ⟨?_, ?_, ?_⟩
  · intro hrel
    rw [srcStep, if_neg (by simp [hh]), if_neg (not_not_intro hsfx),
      if_neg hns, if_pos (by simp [hrel])]
  · intro hrel hne
    have hpre := isPrefixOf_withSuffix_o (parentPath out) src hrel hne
    have hsome : relativeTo (withSuffix src ".o") (parentPath out) =
        some ((withSuffix src ".o").drop (parentPath out).length) := by
      rw [relativeTo, if_pos hpre]
    rw [srcStep, if_neg (by simp [hh]), if_neg (not_not_intro hsfx),
      if_neg hns, if_neg (by simp [hrel]), hsome]
  · intro heq
    subst heq
    have hnone := relativeTo_withSuffix_o_self (parentPath out) hsfx
    rw [srcStep, if_neg (by simp [hh]), if_neg (not_not_intro hsfx),
      if_neg hns, if_neg (not_not_intro (isRelativeTo_self (parentPath out))),
      hnone]

/-- C6 witness: the nested source `c/sub/x.c` of module `c/mod.ko` in
package `a/b` is strictly under the module directory and gets the rule
`mod-y += sub/x.o` with its comment. -/
theorem c6_witness :
    srcSuffix ["c", "sub", "x.c"] ∈ sourceSuffixes ∧
    withSuffix ["c", "sub", "x.c"] ".ko" ≠ ["c", "mod.ko"] ∧
    isRelativeTo ["c", "sub", "x.c"] (parentPath ["c", "mod.ko"]) = true ∧
    ["c", "sub", "x.c"] ≠ parentPath ["c", "mod.ko"] ∧
    srcStep ["a", "b"] ["c", "mod.ko"] ["c", "sub", "x.c"] =
      .ok ("# Source: " ++ pathStr (["a", "b"] ++ ["c", "sub", "x.c"]) ++
        "\n" ++ withSuffixName (pathName ["c", "mod.ko"]) "" ++ "-y += " ++
        pathStr ((withSuffix ["c", "sub", "x.c"] ".o").drop
          (parentPath ["c", "mod.ko"]).length) ++ "\n") :=
  ⟨by decide, by decide, by decide, by decide,
   (c6_compilable_source_rule ["a", "b"] ["c", "mod.ko"] ["c", "sub", "x.c"]
      (by decide) (by decide)).2.1 (by decide) (by decide)⟩

/-! ## C8 -/

/-- C8: compiler-options expansion is a no-op without an options channel;
appending a record appends exactly one shell-escaped ccflags line (order
preserved, no deduplication); an `is_path` record whose value is a
relative path is rewritten by prefixing the computed relative root; and
for the record `opt/x` with `is_path` true and relative root `../..` the
emitted line is `ccflags-y += ../../opt/x`. -/
theorem c8_copt_expansion (relRoot : List String) (ds : List CoptRecord)
    (d : CoptRecord) (hp : d.is_path = true)
    (habs : startsWithSlash d.expanded = false)
    (hrr : relRoot ≠ []) (hne : parseParts d.expanded ≠ []) :
    handleCoptFile relRoot none = "" ∧
    handleCoptFile relRoot (some (ds ++ [d])) =
      handleCoptFile relRoot (some ds) ++ ccflagLine (coptValue relRoot d) ∧
    coptValue relRoot d =
      pathStr relRoot ++ "/" ++ joinParts (parseParts d.expanded) ∧
    handleCoptFile ["..", ".."] (some [⟨"opt/x", true⟩]) =
      "\n# copts\nccflags-y += ../../opt/x\n" := by
  refine ⟨rfl, ?_, ?_, by decide⟩
  · simp only [handleCoptFile, List.map_append, concatStrs_append,
      List.map_cons, List.map_nil, concatStrs, String.append_empty,
      String.append_assoc]
  · rw [coptValue, if_pos hp, pyJoinStr, if_neg (by simp [habs])]
    rw [pathStr, if_neg (by simp [hrr]),
      joinParts_append relRoot (parseParts d.expanded) hrr hne]
    rw [pathStr, if_neg hrr]

/-- C8 witness: the record `opt/x` with `is_path` true, relative root
`../..`, appended after an unrelated flag record. -/
theorem c8_witness :
    (⟨"opt/x", true⟩ : CoptRecord).is_path = true ∧
    startsWithSlash (CoptRecord.expanded ⟨"opt/x", true⟩) = false ∧
    (["..", ".."] : List String) ≠ [] ∧
    parseParts (CoptRecord.expanded ⟨"opt/x", true⟩) ≠ [] ∧
    (handleCoptFile ["..", ".."] none = "" ∧
     handleCoptFile ["..", ".."] (some ([⟨"-Wall", false⟩] ++ [⟨"opt/x", true⟩])) =
       handleCoptFile ["..", ".."] (some [⟨"-Wall", false⟩]) ++
         ccflagLine (coptValue ["..", ".."] ⟨"opt/x", true⟩) ∧
     coptValue ["..", ".."] ⟨"opt/x", true⟩ =
       pathStr ["..", ".."] ++ "/" ++
         joinParts (parseParts (CoptRecord.expanded ⟨"opt/x", true⟩)) ∧
     handleCoptFile ["..", ".."] (some [⟨"opt/x", true⟩]) =
       "\n# copts\nccflags-y += ../../opt/x\n") :=
  ⟨rfl, by decide, by decide, by decide,
   c8_copt_expansion ["..", ".."] [⟨"-Wall", false⟩] ⟨"opt/x", true⟩ rfl
     (by decide) (by decide) (by decide)⟩

/-! ## C9 -/

/-- C9: when the module output path does not end in `.ko`, the generator
fails fatally, but the Makefile written earlier in the same invocation is
kept: after the failure the write log holds exactly the Makefile at the
output root and no Kbuild file (generation is non-atomic on this
error). -/
theorem c9_invalid_output_nonatomic (outputMakefiles out : List String)
    (srcs includeDirs symversList : List (List String))
    (package : List String) (localDefines : List String)
    (coptFile : Option (List CoptRecord)) (mkContent : String)
    (hmk : genMakefileContent package symversList = some mkContent)
    (hko : suffixOfName (pathName out) ≠ ".ko") :
    gen_ddk_makefile outputMakefiles out srcs includeDirs symversList
        package localDefines coptFile =
      ⟨[(outputMakefiles ++ ["Makefile"], mkContent)],
       some ("Invalid output: " ++ pathStr out ++ "; must end with .ko")⟩ := by
  simp only [gen_ddk_makefile, hmk]
  rw [if_pos hko]

/-- C9 witness: output `mod.bad` in package `a/b` with no sources: the
result is the Makefile alone plus the fatal error. -/
theorem c9_witness :
    genMakefileContent ["a", "b"] [] = some makefileTail ∧
    suffixOfName (pathName ["mod.bad"]) ≠ ".ko" ∧
    gen_ddk_makefile ["out"] ["mod.bad"] [] [] [] ["a", "b"] [] none =
      ⟨[(["out"] ++ ["Makefile"], makefileTail)],
       some ("Invalid output: " ++ pathStr ["mod.bad"] ++ "; must end with .ko")⟩ :=
  ⟨by decide, by decide,
   c9_invalid_output_nonatomic ["out"] ["mod.bad"] [] [] [] ["a", "b"] []
     none makefileTail (by decide) (by decide)⟩

/-! ## C10 -/

/-- C10: a package-relative declared source with an empty suffix (no
extension) is skipped silently — no fatal error, no emitted line, and the
surrounding loop continues unchanged — because the header check is a
substring test against `.h` and the empty string is a substring of
`.h`. -/
theorem c10_no_suffix_skipped (package out src : List String)
    (rest : List (List String)) (h : suffixOfName (pathName src) = "") :
    pyInStr "" ".h" = true ∧
    srcStep package out src = .ok "" ∧
    emitSrcs package out (src :: rest) = emitSrcs package out rest := by
  have hsfx : srcSuffix src = "" := by rw [srcSuffix, h]; rfl
  have hstep : srcStep package out src = .ok "" := by
    rw [srcStep, hsfx, if_pos (by decide)]
  refine ⟨rfl, hstep, ?_⟩
  rw [emitSrcs, hstep]
  simp [String.empty_append]

/-- C10 witness: the extensionless source `c/README` for module
`c/mod.ko`, followed by another source that is still processed. -/
theorem c10_witness :
    suffixOfName (pathName ["c", "README"]) = "" ∧
    (pyInStr "" ".h" = true ∧
     srcStep ["a", "b"] ["c", "mod.ko"] ["c", "README"] = .ok "" ∧
     emitSrcs ["a", "b"] ["c", "mod.ko"]
         (["c", "README"] :: [["c", "helper.c"]]) =
       emitSrcs ["a", "b"] ["c", "mod.ko"] [["c", "helper.c"]]) :=
  ⟨by decide, c10_no_suffix_skipped ["a", "b"] ["c", "mod.ko"]
    ["c", "README"] [["c", "helper.c"]] (by decide)⟩

end GenMakefiles
